import Mathlib

/-!
Shallow embedding of the minstafit border-compositor core
(`src/lib/photo-editor.ts` and the session-caching variant of the same
module). Image dimensions are modelled over `ℚ` (the TypeScript code works
on JavaScript numbers treated by the specification as positive reals, and
every operation here is closed-form arithmetic). The Jimp raster library is
opaque to the core: only dimensions flow through the geometry, so raster
calls are modelled by an environment that says whether each call succeeds
and what dimension a decode yields; a thrown Jimp error is an `Except`
error, and the `try/catch` wrapper converts any error to `none` (the
`null` sentinel of the TypeScript function).
-/

/- `enum BlurRadius` from `photo-editor.ts`. -/
namespace BlurRadius

def Min : ℚ := 1

def Max : ℚ := 100

def Default : ℚ := 50

end BlurRadius

/-- `interface Dimension` : width/height of a raster. -/
structure Dimension where
  width : ℚ
  height : ℚ
deriving DecidableEq, Repr

/-- `interface Coordinate` : pixel coordinate / placement offset. -/
structure Coordinate where
  x : ℚ
  y : ℚ
deriving DecidableEq, Repr

/-- Argument record of Jimp `crop` as used by `processImage`. -/
structure CropRegion where
  x : ℚ
  y : ℚ
  w : ℚ
  h : ℚ
deriving DecidableEq, Repr

/-- `heightMin` computed inside `expandToMinBorder`:
`lenFactor = width / 1080`, `heightMin = 565.31 * lenFactor`. -/
def heightMin (width : ℚ) : ℚ := 565.31 * (width / 1080)

/-- `heightMax` computed inside `expandToMinBorder`:
`heightMax = 1350 * lenFactor`. -/
def heightMax (width : ℚ) : ℚ := 1350 * (width / 1080)

/-- The accepted aspect-ratio band: a dimension whose height lies between
the minimum and maximum height for its width. -/
def inBand (d : Dimension) : Prop :=
  heightMin d.width ≤ d.height ∧ d.height ≤ heightMax d.width

instance (d : Dimension) : Decidable (inBand d) := by
  unfold inBand; infer_instance

/-- `expandToMinBorder` from `photo-editor.ts` (constant 565.31). -/
def expandToMinBorder (width height : ℚ) : Dimension :=
  if height < heightMin width then
    let hDelta := heightMin width - height
    let wDelta := hDelta * (width / height)
    ⟨width + wDelta, height + hDelta⟩
  else if heightMax width < height then
    let hDelta := height - heightMax width
    let wDelta := hDelta * (width / height)
    ⟨width + wDelta, height + hDelta⟩
  else
    ⟨width, height⟩

/-- `getCenterOffset` from `photo-editor.ts`. -/
def getCenterOffset (fg bg : Dimension) : Coordinate :=
  ⟨(bg.width - fg.width) / 2, (bg.height - fg.height) / 2⟩

/-- Errors the Jimp collaborator can raise inside the `try` block. -/
inductive JimpError where
  | decodeFailed
  | undefinedImage
  | blurFailed
  | resizeFailed
  | compositeFailed
  | cropFailed
  | encodeFailed
deriving DecidableEq, Repr

/-- Environment for one `processImage` call: the outcome of `Jimp.read`
on the supplied URL, and whether each raster call succeeds. -/
structure JimpEnv where
  decoded : Option Dimension
  blurOk : Bool
  resizeOk : Bool
  compositeOk : Bool
  cropOk : Bool
  encodeOk : Bool
deriving DecidableEq, Repr

/-- Dimension-level trace of a successful `processImage` run. -/
structure ProcResult where
  expanded : Dimension
  offset : Coordinate
  crop : CropRegion
  finalDim : Dimension
deriving DecidableEq, Repr

/-- Body of the `try` block of `processImage` (`photo-editor.ts` lines
86-127) at the dimension level: decode, blur the background copy, resize
it to `expandToMinBorder` of the foreground dimension, composite the
foreground at the center offset, pick the crop region by orientation,
crop, encode. A raised Jimp error is an `Except.error`. -/
def processImageTry (env : JimpEnv) (blurRadius : ℚ) : Except JimpError ProcResult :=
  match env.decoded with
  | none => Except.error JimpError.decodeFailed
  | some origImg =>
    if !env.blurOk then Except.error JimpError.blurFailed
    else
      let instaRatio := expandToMinBorder origImg.width origImg.height
      if !env.resizeOk then Except.error JimpError.resizeFailed
      else
        let offset := getCenterOffset ⟨origImg.width, origImg.height⟩
          ⟨instaRatio.width, instaRatio.height⟩
        if !env.compositeOk then Except.error JimpError.compositeFailed
        else
          let crop : CropRegion :=
            if origImg.width > origImg.height then
              ⟨offset.x, 0, origImg.width, instaRatio.height⟩
            else
              ⟨0, offset.y, instaRatio.width, origImg.height⟩
          if !env.cropOk then Except.error JimpError.cropFailed
          else if !env.encodeOk then Except.error JimpError.encodeFailed
          else Except.ok ⟨instaRatio, offset, crop, ⟨crop.w, crop.h⟩⟩

/-- `processImage` from `photo-editor.ts`: validate the blur radius
(return `null` when out of `[BlurRadius.Min, BlurRadius.Max]`), then run
the `try` block; `catch` converts any raised error to `null`. -/
def processImage (env : JimpEnv) (blurRadius : ℚ) : Option ProcResult :=
  if blurRadius < BlurRadius.Min ∨ BlurRadius.Max < blurRadius then none
  else
    match processImageTry env blurRadius with
    | Except.ok r => some r
    | Except.error _ => none

/-- An environment in which the image decodes to `d` and every raster
call succeeds. -/
def goodEnv (d : Dimension) : JimpEnv := ⟨some d, true, true, true, true, true⟩

/-- An environment in which the image decodes but the blur call raises. -/
def blurFailEnv : JimpEnv := ⟨some ⟨1080, 1080⟩, false, true, true, true, true⟩

/-- The dimension-level trace `processImage` produces in a fully
successful run on foreground dimension `fg`. -/
def goodResult (fg : Dimension) : ProcResult :=
  let instaRatio := expandToMinBorder fg.width fg.height
  let offset := getCenterOffset ⟨fg.width, fg.height⟩
    ⟨instaRatio.width, instaRatio.height⟩
  let crop : CropRegion :=
    if fg.width > fg.height then
      ⟨offset.x, 0, fg.width, instaRatio.height⟩
    else
      ⟨0, offset.y, instaRatio.width, fg.height⟩
  ⟨instaRatio, offset, crop, ⟨crop.w, crop.h⟩⟩

/-- Module-level cached Jimp handles of the session-caching variant:
`let origImg: any, fgImg: any, bgImg: any;` — `none` models a handle
that is still `undefined`. -/
structure SessionState where
  origImg : Option Dimension
  fgImg : Option Dimension
  bgImg : Option Dimension
deriving DecidableEq, Repr

namespace Session

/-- `heightMin` of the session-caching variant (constant 566). -/
def heightMin (width : ℚ) : ℚ := 566 * (width / 1080)

/-- `heightMax` of the session-caching variant. -/
def heightMax (width : ℚ) : ℚ := 1350 * (width / 1080)

/-- `expandToMinBorder` of the session-caching variant. -/
def expandToMinBorder (width height : ℚ) : Dimension :=
  if height < heightMin width then
    let hDelta := heightMin width - height
    let wDelta := hDelta * (width / height)
    ⟨width + wDelta, height + hDelta⟩
  else if heightMax width < height then
    let hDelta := height - heightMax width
    let wDelta := hDelta * (width / height)
    ⟨width + wDelta, height + hDelta⟩
  else
    ⟨width, height⟩

/-- Jimp `resize({ w: 1080 })`: scale to width 1080 keeping the ratio. -/
def resizeW1080 (d : Dimension) : Dimension := ⟨1080, d.height * (1080 / d.width)⟩

/-- Accessing a possibly-`undefined` cached Jimp handle: calling a method
on `undefined` raises a TypeError inside the `try` block. -/
def access (img : Option Dimension) : Except JimpError Dimension :=
  match img with
  | none => Except.error JimpError.undefinedImage
  | some d => Except.ok d

/-- Body of the `try` block of the session-caching `processImage`:
`if (newImage) origImg = await Jimp.read(imageUrl);`
`if (newImage || useFullRes) fgImg = origImg.clone();`
`if (!useFullRes) fgImg.resize({ w: 1080 });`
`bgImg = fgImg.clone();` then blur, expand, resize, composite, crop,
encode as in the plain variant. -/
def processImageTry (st : SessionState) (env : JimpEnv) (blurRadius : ℚ)
    (newImage useFullRes : Bool) : Except JimpError ProcResult :=
  let origStep : Except JimpError (Option Dimension) :=
    if newImage then
      match env.decoded with
      | none => Except.error JimpError.decodeFailed
      | some d => Except.ok (some d)
    else Except.ok st.origImg
  match origStep with
  | Except.error e => Except.error e
  | Except.ok origImg =>
    let fgStepClone : Except JimpError (Option Dimension) :=
      if newImage || useFullRes then
        match access origImg with
        | Except.error e => Except.error e
        | Except.ok d => Except.ok (some d)
      else Except.ok st.fgImg
    match fgStepClone with
    | Except.error e => Except.error e
    | Except.ok fgImg0 =>
      let fgStepResize : Except JimpError (Option Dimension) :=
        if !useFullRes then
          match access fgImg0 with
          | Except.error e => Except.error e
          | Except.ok d =>
            if !env.resizeOk then Except.error JimpError.resizeFailed
            else Except.ok (some (resizeW1080 d))
        else Except.ok fgImg0
      match fgStepResize with
      | Except.error e => Except.error e
      | Except.ok fgImg1 =>
        match access fgImg1 with
        | Except.error e => Except.error e
        | Except.ok fg =>
          if !env.blurOk then Except.error JimpError.blurFailed
          else
            let expanded := expandToMinBorder fg.width fg.height
            if !env.resizeOk then Except.error JimpError.resizeFailed
            else
              let offset := getCenterOffset ⟨fg.width, fg.height⟩
                ⟨expanded.width, expanded.height⟩
              if !env.compositeOk then Except.error JimpError.compositeFailed
              else
                let crop : CropRegion :=
                  if fg.width > fg.height then
                    ⟨offset.x, 0, fg.width, expanded.height⟩
                  else
                    ⟨0, offset.y, expanded.width, fg.height⟩
                if !env.cropOk then Except.error JimpError.cropFailed
                else if !env.encodeOk then Except.error JimpError.encodeFailed
                else Except.ok ⟨expanded, offset, crop, ⟨crop.w, crop.h⟩⟩

/-- The session-caching `processImage`: validate the blur radius, then run
the `try` body; the `catch` block returns `null` on any raised error. -/
def processImage (st : SessionState) (env : JimpEnv) (blurRadius : ℚ)
    (newImage useFullRes : Bool) : Option ProcResult :=
  if blurRadius < BlurRadius.Min ∨ BlurRadius.Max < blurRadius then none
  else
    match processImageTry st env blurRadius newImage useFullRes with
    | Except.ok r => some r
    | Except.error _ => none

/-- The module state before any image has been processed. -/
def initialState : SessionState := ⟨none, none, none⟩

end Session

/-! ## Helper lemmas -/

lemma heightMin_pos {w : ℚ} (hw : 0 < w) : 0 < heightMin w := by
  unfold heightMin; positivity

lemma heightMax_pos {w : ℚ} (hw : 0 < w) : 0 < heightMax w := by
  unfold heightMax; positivity

lemma heightMin_lt_heightMax {w : ℚ} (hw : 0 < w) : heightMin w < heightMax w := by
  unfold heightMin heightMax
  have h1080 : 0 < w / 1080 := by positivity
  nlinarith

lemma heightMin_strictMono {w v : ℚ} (h : w < v) : heightMin w < heightMin v := by
  unfold heightMin
  have : w / 1080 < v / 1080 := by linarith
  nlinarith

/-- In the too-wide branch the expanded width strictly exceeds the
original width. -/
lemma expand_width_gt {w h : ℚ} (hw : 0 < w) (hh : 0 < h)
    (hlt : h < heightMin w) : w < (expandToMinBorder w h).width := by
  unfold expandToMinBorder
  rw [if_pos hlt]
  have hdelta : 0 < heightMin w - h := by linarith
  have hratio : 0 < w / h := by positivity
  simp only
  nlinarith

/-- The expansion preserves the original aspect ratio in every branch. -/
lemma expand_ratio_eq (w h : ℚ) (hw : 0 < w) (hh : 0 < h) :
    (expandToMinBorder w h).width / (expandToMinBorder w h).height = w / h := by
  have hmin := heightMin_pos hw
  have hmax := heightMax_pos hw
  unfold expandToMinBorder
  split_ifs with h1 h2
  · simp only
    have hden : h + (heightMin w - h) = heightMin w := by ring
    rw [div_eq_div_iff (by rw [hden]; exact hmin.ne') hh.ne']
    field_simp
    ring
  · simp only
    have hden : 0 < h + (h - heightMax w) := by linarith
    rw [div_eq_div_iff hden.ne' hh.ne']
    field_simp
    ring
  · rfl

/-- A fully successful run of `processImage` yields the `goodResult`
trace. -/
lemma processImage_goodEnv (fg : Dimension) (br : ℚ)
    (hv : ¬(br < BlurRadius.Min ∨ BlurRadius.Max < br)) :
    processImage (goodEnv fg) br = some (goodResult fg) := by
  unfold processImage
  rw [if_neg hv]
  rfl

/-! ## Claim theorems -/

/-- Claim C2: for every positive width and height already inside the
accepted band (`heightMin w ≤ h ≤ heightMax w`), `expandToMinBorder`
returns the dimension unchanged; in particular the boundary cases
`h = heightMin w` and `h = heightMax w` do not trigger growth. -/
theorem expandToMinBorder_identity_in_band (w h : ℚ) (hw : 0 < w) (hh : 0 < h)
    (h1 : heightMin w ≤ h) (h2 : h ≤ heightMax w) :
    expandToMinBorder w h = ⟨w, h⟩ := by
  unfold expandToMinBorder
  rw [if_neg (not_lt.mpr h1), if_neg (not_lt.mpr h2)]

theorem expandToMinBorder_identity_in_band_witness :
    expandToMinBorder 1080 1080 = ⟨1080, 1080⟩ :=
  expandToMinBorder_identity_in_band 1080 1080 (by norm_num) (by norm_num)
    (by norm_num [heightMin]) (by norm_num [heightMax])

/-- Claim C3: `expandToMinBorder` follows the two-branch growth
algorithm: for `h < heightMin w` it returns
`(w + hDelta * (w / h), h + hDelta)` with `hDelta = heightMin w - h`, so
the returned height is exactly `heightMin w`; for `h > heightMax w` it
returns `(w + hDelta * (w / h), h + hDelta)` with
`hDelta = h - heightMax w`. -/
theorem expandToMinBorder_two_branch (w h : ℚ) (hw : 0 < w) (hh : 0 < h) :
    (h < heightMin w →
      expandToMinBorder w h =
        ⟨w + (heightMin w - h) * (w / h), h + (heightMin w - h)⟩) ∧
    (heightMax w < h →
      expandToMinBorder w h =
        ⟨w + (h - heightMax w) * (w / h), h + (h - heightMax w)⟩) ∧
    (h < heightMin w → (expandToMinBorder w h).height = heightMin w) := by
  refine ⟨?_, ?_, ?_⟩
  · intro hlt
    unfold expandToMinBorder
    rw [if_pos hlt]
  · intro hgt
    have hnot : ¬(h < heightMin w) :=
      not_lt.mpr (le_of_lt (lt_trans (heightMin_lt_heightMax hw) hgt))
    unfold expandToMinBorder
    rw [if_neg hnot, if_pos hgt]
  · intro hlt
    unfold expandToMinBorder
    rw [if_pos hlt]
    simp only
    ring

theorem expandToMinBorder_two_branch_witness :
    expandToMinBorder 1080 300 =
      ⟨1080 + (heightMin 1080 - 300) * (1080 / 300), 300 + (heightMin 1080 - 300)⟩ :=
  (expandToMinBorder_two_branch 1080 300 (by norm_num) (by norm_num)).1
    (by norm_num [heightMin])

/-- Claim C4: for every positive width and height, the dimension returned
by `expandToMinBorder` has exactly the original aspect ratio `w / h` in
all three cases (too wide, too tall, already fitting). -/
theorem expandToMinBorder_preserves_ratio (w h : ℚ) (hw : 0 < w) (hh : 0 < h) :
    (expandToMinBorder w h).width / (expandToMinBorder w h).height = w / h :=
  expand_ratio_eq w h hw hh

theorem expandToMinBorder_preserves_ratio_witness :
    (expandToMinBorder 1080 300).width / (expandToMinBorder 1080 300).height
      = 1080 / 300 :=
  expandToMinBorder_preserves_ratio 1080 300 (by norm_num) (by norm_num)

/-- Claim C6: `getCenterOffset` returns exactly
`((bg.width - fg.width) / 2, (bg.height - fg.height) / 2)`, and this
offset centers the foreground: `2 * x + fg.width = bg.width` and
`2 * y + fg.height = bg.height`. It is a pure function of its
arguments. -/
theorem getCenterOffset_centers (fg bg : Dimension) :
    getCenterOffset fg bg =
      ⟨(bg.width - fg.width) / 2, (bg.height - fg.height) / 2⟩ ∧
    2 * (getCenterOffset fg bg).x + fg.width = bg.width ∧
    2 * (getCenterOffset fg bg).y + fg.height = bg.height := by
  refine ⟨rfl, ?_, ?_⟩ <;> simp only [getCenterOffset] <;> ring

/-- Claim C1 counterexample: at width 1080 and height 300 the too-wide
branch fires, yet the returned dimension is NOT inside the accepted
band, and its ratio is NOT the minimum-height boundary ratio
`1080 / heightMin 1080`; it is the original ratio `1080 / 300`. -/
theorem expand_band_counterexample :
    (300 : ℚ) < heightMin 1080 ∧
    ¬ inBand (expandToMinBorder 1080 300) ∧
    (expandToMinBorder 1080 300).width / (expandToMinBorder 1080 300).height
      ≠ 1080 / heightMin 1080 := by
  norm_num [heightMin, heightMax, inBand, expandToMinBorder]

/-- Claim C1 (amended): for every positive `w`, `h` with
`h < heightMin w`, the returned height lands exactly at the
minimum-height boundary `heightMin w` computed for the ORIGINAL width,
and the returned ratio equals the original ratio `w / h`; the returned
dimension is not inside the accepted band for its own width. -/
theorem expand_too_wide_lands_on_boundary (w h : ℚ) (hw : 0 < w) (hh : 0 < h)
    (hlt : h < heightMin w) :
    (expandToMinBorder w h).height = heightMin w ∧
    (expandToMinBorder w h).width / (expandToMinBorder w h).height = w / h ∧
    ¬ inBand (expandToMinBorder w h) := by
  have hheight : (expandToMinBorder w h).height = heightMin w := by
    unfold expandToMinBorder
    rw [if_pos hlt]
    simp only
    ring
  refine ⟨hheight, expand_ratio_eq w h hw hh, ?_⟩
  intro hband
  unfold inBand at hband
  have hwidth := expand_width_gt hw hh hlt
  have hmono := heightMin_strictMono hwidth
  rw [hheight] at hband
  exact absurd hband.1 (not_le.mpr hmono)

theorem expand_too_wide_lands_on_boundary_witness :
    (expandToMinBorder 1080 300).height = heightMin 1080 ∧
    (expandToMinBorder 1080 300).width / (expandToMinBorder 1080 300).height
      = 1080 / 300 ∧
    ¬ inBand (expandToMinBorder 1080 300) :=
  expand_too_wide_lands_on_boundary 1080 300 (by norm_num) (by norm_num)
    (by norm_num [heightMin])

/-- Claim C9 counterexample: at input 1080 by 300 the width growth is NOT
954 (it is 955.116) and the returned width is NOT 1080 + 954 = 2034
(it is 2035.116). -/
theorem expand_scenarioB_counterexample :
    (expandToMinBorder 1080 300).width - 1080 ≠ 954 ∧
    (expandToMinBorder 1080 300).width ≠ 2034 ∧
    (heightMin 1080 - 300) * (1080 / 300) ≠ 954 := by
  norm_num [expandToMinBorder, heightMin]

/-- Claim C9 (amended): for input width 1080 and height 300 the too-wide
branch fires and `expandToMinBorder` returns exactly 2035.116 by 565.31:
`hDelta = heightMin 1080 - 300 = 265.31`,
`wDelta = hDelta * (1080 / 300) = 955.116`, and the returned height
equals `heightMin 1080`. -/
theorem expand_scenarioB :
    (300 : ℚ) < heightMin 1080 ∧
    heightMin 1080 - 300 = 265.31 ∧
    (heightMin 1080 - 300) * (1080 / 300) = 955.116 ∧
    expandToMinBorder 1080 300 = ⟨2035.116, 565.31⟩ ∧
    (expandToMinBorder 1080 300).height = heightMin 1080 := by
  norm_num [expandToMinBorder, heightMin, Dimension.mk.injEq]

/-- Claim C5: in a successful `processImage` run the crop region is
selected by strict foreground orientation: when the foreground is
landscape (`width > height`) the crop is
`(offset.x, 0, fg.width, bg.height)`; when it is portrait or exactly
square (`width ≤ height`) the crop is
`(0, offset.y, bg.width, fg.height)`, where `bg` is the expanded
background and `offset` the center offset. -/
theorem processImage_crop_selection (fg : Dimension) (br : ℚ)
    (h1 : BlurRadius.Min ≤ br) (h2 : br ≤ BlurRadius.Max) :
    processImage (goodEnv fg) br = some (goodResult fg) ∧
    (fg.width > fg.height →
      (goodResult fg).crop =
        ⟨(getCenterOffset fg (expandToMinBorder fg.width fg.height)).x, 0,
          fg.width, (expandToMinBorder fg.width fg.height).height⟩) ∧
    (fg.width ≤ fg.height →
      (goodResult fg).crop =
        ⟨0, (getCenterOffset fg (expandToMinBorder fg.width fg.height)).y,
          (expandToMinBorder fg.width fg.height).width, fg.height⟩) := by
  have hv : ¬(br < BlurRadius.Min ∨ BlurRadius.Max < br) := by
    rintro (hc | hc)
    · exact absurd h1 (not_le.mpr hc)
    · exact absurd h2 (not_le.mpr hc)
  refine ⟨processImage_goodEnv fg br hv, ?_, ?_⟩
  · intro hgt
    simp only [goodResult]
    rw [if_pos hgt]
  · intro hle
    simp only [goodResult]
    rw [if_neg (not_lt.mpr hle)]

theorem processImage_crop_selection_witness :
    processImage (goodEnv ⟨1080, 300⟩) 50 = some (goodResult ⟨1080, 300⟩) ∧
    (goodResult ⟨1080, 300⟩).crop =
      ⟨(getCenterOffset ⟨1080, 300⟩ (expandToMinBorder 1080 300)).x, 0, 1080,
        (expandToMinBorder 1080 300).height⟩ := by
  have h := processImage_crop_selection ⟨1080, 300⟩ 50
    (by norm_num [BlurRadius.Min]) (by norm_num [BlurRadius.Max])
  exact ⟨h.1, h.2.1 (by norm_num)⟩

/-- Claim C7: `processImage` with blur radius 1 or 100 passes validation
and succeeds on a valid image; with 0, 101, or any radius outside
`[1, 100]` it returns the `null` sentinel for EVERY environment — the
failure happens before any raster work, touching no image state. -/
theorem processImage_blur_validation (env : JimpEnv) (d : Dimension) (br : ℚ)
    (hbr : br < BlurRadius.Min ∨ BlurRadius.Max < br) :
    processImage env br = none ∧
    processImage env 0 = none ∧
    processImage env 101 = none ∧
    processImage (goodEnv d) 1 = some (goodResult d) ∧
    processImage (goodEnv d) 100 = some (goodResult d) := by
  refine ⟨?_, ?_, ?_, ?_, ?_⟩
  · unfold processImage
    rw [if_pos hbr]
  · unfold processImage
    rw [if_pos (Or.inl (by norm_num [BlurRadius.Min]))]
  · unfold processImage
    rw [if_pos (Or.inr (by norm_num [BlurRadius.Max]))]
  · exact processImage_goodEnv d 1
      (by push_neg; norm_num [BlurRadius.Min, BlurRadius.Max])
  · exact processImage_goodEnv d 100
      (by push_neg; norm_num [BlurRadius.Min, BlurRadius.Max])

theorem processImage_blur_validation_witness :
    processImage (goodEnv ⟨1080, 1080⟩) 0 = none ∧
    processImage (goodEnv ⟨1080, 1080⟩) 1 = some (goodResult ⟨1080, 1080⟩) :=
  ⟨(processImage_blur_validation (goodEnv ⟨1080, 1080⟩) ⟨1080, 1080⟩ 0
      (Or.inl (by norm_num [BlurRadius.Min]))).2.1,
   (processImage_blur_validation (goodEnv ⟨1080, 1080⟩) ⟨1080, 1080⟩ 0
      (Or.inl (by norm_num [BlurRadius.Min]))).2.2.2.1⟩

/-- Claim C8: `processImage` never lets an error cross its boundary: any
error raised by the `try` body yields the `null` sentinel, every success
it reports is one the `try` body actually produced, and each call
observably returns either the sentinel or a success value. -/
theorem processImage_no_propagation (env : JimpEnv) (br : ℚ) :
    ((∃ e, processImageTry env br = Except.error e) → processImage env br = none) ∧
    (∀ r, processImage env br = some r → processImageTry env br = Except.ok r) ∧
    (processImage env br = none ∨ ∃ r, processImage env br = some r) := by
  by_cases hv : br < BlurRadius.Min ∨ BlurRadius.Max < br
  · have hnone : processImage env br = none := by
      unfold processImage
      rw [if_pos hv]
    refine ⟨fun _ => hnone, ?_, Or.inl hnone⟩
    intro r hr
    rw [hnone] at hr
    exact absurd hr (by simp)
  · cases hE : processImageTry env br with
    | error e =>
      have hnone : processImage env br = none := by
        unfold processImage
        rw [if_neg hv, hE]
      refine ⟨fun _ => hnone, ?_, Or.inl hnone⟩
      intro r hr
      rw [hnone] at hr
      exact absurd hr (by simp)
    | ok r =>
      have hsome : processImage env br = some r := by
        unfold processImage
        rw [if_neg hv, hE]
      refine ⟨?_, ?_, Or.inr ⟨r, hsome⟩⟩
      · rintro ⟨e, he⟩
        exact absurd he (by simp)
      · intro s hs
        rw [hsome] at hs
        exact congrArg Except.ok (Option.some.inj hs)

theorem processImage_no_propagation_witness :
    processImage blurFailEnv 50 = none :=
  (processImage_no_propagation blurFailEnv 50).1 ⟨JimpError.blurFailed, rfl⟩

/-- Claim C10: in the session-caching variant, calling `processImage`
with `newImage = false` before any prior successful `newImage = true`
call (cached handles still `undefined`) returns the `null` sentinel
rather than throwing: the access to the uninitialized cached image
raises inside the `try` block and is caught at the boundary. -/
theorem session_uninitialized_returns_null (env : JimpEnv) (br : ℚ)
    (useFullRes : Bool) (h1 : BlurRadius.Min ≤ br) (h2 : br ≤ BlurRadius.Max) :
    Session.processImage Session.initialState env br false useFullRes = none ∧
    Session.processImageTry Session.initialState env br false useFullRes =
      Except.error JimpError.undefinedImage := by
  have hv : ¬(br < BlurRadius.Min ∨ BlurRadius.Max < br) := by
    rintro (hc | hc)
    · exact absurd h1 (not_le.mpr hc)
    · exact absurd h2 (not_le.mpr hc)
  cases useFullRes with
  | false =>
    refine ⟨?_, rfl⟩
    unfold Session.processImage
    rw [if_neg hv]
    rfl
  | true =>
    refine ⟨?_, rfl⟩
    unfold Session.processImage
    rw [if_neg hv]
    rfl

theorem session_uninitialized_returns_null_witness :
    Session.processImage Session.initialState (goodEnv ⟨1080, 1080⟩) 50 false false
      = none :=
  (session_uninitialized_returns_null (goodEnv ⟨1080, 1080⟩) 50 false
    (by norm_num [BlurRadius.Min]) (by norm_num [BlurRadius.Max])).1
